import Mathlib

/-!
A shallow embedding of `src/api-resource.js` (an AngularJS declarative REST
client generator).  JavaScript values are modelled by the inductive `JSVal`;
the asynchronous promise machinery is modelled by settled outcomes
(`Except Reason JSVal`), with reference identity of response objects tracked
through an explicit numeric tag (`TaggedVal`).  Every definition below is a
direct transcription of the corresponding function in the source file.
-/

set_option autoImplicit false

/-- JavaScript values, as far as this library observes them.  Numbers are
modelled as integers (the library performs no arithmetic on them). -/
inductive JSVal where
  | undefined
  | null
  | bool (b : Bool)
  | num (n : Int)
  | str (s : String)
  | obj (fields : List (String × JSVal))
  | arr (elems : List JSVal)

/-- JavaScript truthiness (`if (v)`), restricted to the modelled values. -/
def truthy : JSVal → Bool
  | .undefined => false
  | .null => false
  | .bool b => b
  | .num n => n != 0
  | .str s => s ≠ ""
  | .obj _ => true
  | .arr _ => true

/-- JavaScript `isUndefined(v) || v === null`, the nullish test the source uses repeatedly. -/
def isNullish : JSVal → Bool
  | .undefined => true
  | .null => true
  | _ => false

/-- Angular `angular.isObject`: non-null and of type object (arrays included). -/
def isObjectVal : JSVal → Bool
  | .obj _ => true
  | .arr _ => true
  | _ => false

/-- A string is a canonical array-index property key ("0", "7", "12", ...;
not "07"): only such keys address elements of a JavaScript array. -/
def isCanonicalIndex (s : String) : Bool :=
  !s.data.isEmpty && s.data.all Char.isDigit &&
    (s.data = ['0'] || s.data.head? != some '0')

/-- Numeric value of a digit string. -/
def digitsToNat (s : String) : Nat :=
  s.data.foldl (fun n c => n * 10 + (c.toNat - 48)) 0

/-- JavaScript `path.split('.')` (on character lists, so that it computes
by structural recursion). -/
def splitOnDot : List Char → List (List Char)
  | [] => [[]]
  | '.' :: rest => [] :: splitOnDot rest
  | c :: rest =>
      match splitOnDot rest with
      | [] => [[c]]
      | g :: gs => (c :: g) :: gs

/-- Property read `v[key]` on a defined, non-null value (prototype chains of
plain data are not modelled; absent keys read as `undefined`). -/
def getProp : JSVal → String → JSVal
  | .obj fields, key => ((fields.lookup key).getD .undefined)
  | .arr elems, key =>
      if key = "length" then .num elems.length
      else if isCanonicalIndex key then elems.getD (digitsToNat key) .undefined
      else .undefined
  | .str s, key =>
      if key = "length" then .num s.length
      else if isCanonicalIndex key && digitsToNat key < s.length then
        .str (String.mk [s.data.getD (digitsToNat key) ' '])
      else .undefined
  | _, _ => .undefined

/-- JavaScript `data && data[key]` (JavaScript short-circuit `&&`). -/
def jsAnd (data : JSVal) (key : String) : JSVal :=
  if truthy data then getProp data key else data

/-- JavaScript `args[pos]` where `args` is a real JavaScript array and `pos` a digit
string: only canonical index keys hit elements. -/
def arrayGetStr (xs : List JSVal) (key : String) : JSVal :=
  if isCanonicalIndex key then xs.getD (digitsToNat key) .undefined else .undefined

/-- One step of `lookupDottedPath`'s loop body:
`obj = (obj !== null) ? obj[key] : undefined`, with the loop guard
`isDefined(obj)` folded in (an `undefined` accumulator stays `undefined`). -/
def dotStep (o : JSVal) (key : String) : JSVal :=
  match o with
  | .undefined => .undefined
  | .null => .undefined
  | v => getProp v key

/-- Source `lookupDottedPath(obj, path)`: split the path on `.` and walk. -/
def lookupDottedPath (o : JSVal) (path : String) : JSVal :=
  (splitOnDot path.data).foldl (fun acc ks => dotStep acc (String.mk ks)) o

/-- Source `extract(str, _default)` (the inner helper of `extractParams`);
`args` and `data` are the closure variables of the same names. -/
def extract (args : List JSVal) (data : JSVal) (str : String) (dflt : JSVal) : JSVal :=
  if str = "=" then dflt
  else
    match str.data with
    | '@' :: rest =>
        let ds := rest.takeWhile Char.isDigit
        let tail := rest.dropWhile Char.isDigit
        if ds.isEmpty then lookupDottedPath data (String.mk rest)
        else
          match tail with
          | [] => arrayGetStr args (String.mk ds)
          | '.' :: p => lookupDottedPath (arrayGetStr args (String.mk ds)) (String.mk p)
          | _ => lookupDottedPath data (String.mk rest)
    | _ => .str str

/-- Synchronously thrown JavaScript errors, identified by constructor and
message exactly as the source builds them. -/
inductive JsErr where
  | typeError (msg : String)
  | jsError (msg : String)
deriving DecidableEq

/-- Source `ExpectedTypeError(expected, type)` (with its vowel-sensitive
article). -/
def expectedTypeError (expected ty : String) : JsErr :=
  let pl := if "AEIOUaeiou".contains (ty.data.headD ' ') then "n " else " "
  .typeError (expected ++ " must be a" ++ pl ++ ty)

/-- Source `MissingBodyError(name, method)`. -/
def missingBodyError (name method : String) : JsErr :=
  .jsError ("Action call " ++ name ++ " with method " ++ method ++ " is missing a body")

/-- Source `ExpectedArrayError(name)`. -/
def expectedArrayError (name : String) : JsErr :=
  .typeError ("Action " ++ name ++ " expected Array data")

/-- Source `UnresolvedRequest(name)`. -/
def unresolvedRequest (name : String) : JsErr :=
  .jsError ("Instance action " ++ name ++ " called before previous action was resolved")

/-- The runtime TypeError a JavaScript engine raises on a property write
through `undefined` (reached when a collection response outruns the
pre-created wrappers). -/
def undefWriteError (slot : String) : JsErr :=
  .typeError ("Cannot set properties of undefined (setting " ++ slot ++ ")")

/-- A value of an entry of a `params`/`queryParams` map: either a
zero-argument producer function or a plain value (possibly a mapper
string). -/
inductive PEntry where
  | fnE (f : Unit → JSVal)
  | jsE (v : JSVal)

/-- The `params` / `queryParams` property of an action definition.
`undefined` is an absent property; `strSpec` a bare mapper string; `mapSpec`
a key/value map (JavaScript objects, so keys are unique); `badSpec` any
other value (rejected with a TypeError by `extractParams`). -/
inductive PSpec where
  | undefined
  | strSpec (s : String)
  | mapSpec (entries : List (String × PEntry))
  | badSpec (v : JSVal)

/-- Result of `extractParams`: either the object returned directly by the
bare-string shorthand (`raw`), or the freshly built map whose prototype
carries the `$$missing` sentinel (`built`). -/
inductive EP where
  | raw (v : JSVal)
  | built (values : List (String × JSVal)) (missing : Bool)

/-- Truthiness of `ep.$$missing` (own field of a raw object; the prototype
sentinel of a built map). -/
def EP.missingFlag : EP → Bool
  | .raw v => truthy (getProp v "$$missing")
  | .built _ m => m

/-- JavaScript `p && p.$$missing` for a possibly-null extraction result. -/
def missingOpt : Option EP → Bool
  | none => false
  | some ep => ep.missingFlag

/-- JavaScript object property assignment on an association list: overwrite
in place if the key exists, append otherwise (key order preserved). -/
def setField : List (String × JSVal) → String → JSVal → List (String × JSVal)
  | [], k, v => [(k, v)]
  | (k', v') :: rest, k, v =>
      if k' = k then (k, v) :: rest else (k', v') :: setField rest k v

/-- The per-key loop of `extractParams`: producer functions are invoked,
string values go through `extract` with `data && data[key]` as default,
other values pass unchanged; a null/undefined result sets `$$missing`. -/
def extractEntries (args : List JSVal) (data : JSVal)
    (entries : List (String × PEntry)) : List (String × JSVal) × Bool :=
  entries.foldl
    (fun acc ke =>
      let value := match ke.2 with
        | .fnE f => f ()
        | .jsE v => v
      let ev := match value with
        | .str s => extract args data s (jsAnd data ke.1)
        | v => v
      (setField acc.1 ke.1 ev, acc.2 || isNullish ev))
    ([], false)

/-- Source `extractParams(params, args, data)`.  Returns `none` for an
absent spec (the source's `null`), throws the source's TypeError for a
non-object spec or a bare string resolving to a non-object. -/
def extractParams (ps : PSpec) (args : List JSVal) (data : JSVal) :
    Except JsErr (Option EP) :=
  match ps with
  | .undefined => .ok none
  | .strSpec s =>
      let p := extract args data s data
      if isObjectVal p then .ok (some (.raw p))
      else .error (expectedTypeError "Params for http request" "Object")
  | .mapSpec entries =>
      let (vs, m) := extractEntries args data entries
      .ok (some (.built vs m))
  | .badSpec _ => .error (expectedTypeError "Params for http request" "Object")

/-- JavaScript string coercion of the modelled values (as applied by
`url.replace(':' + key, value)`). -/
def jsToString : JSVal → String
  | .undefined => "undefined"
  | .null => "null"
  | .bool b => cond b "true" "false"
  | .num n => toString n
  | .str s => s
  | .obj _ => "[object Object]"
  | .arr es => String.intercalate "," (jsToStringElems es)
where
  /-- Array elements join with `,`; `null`/`undefined` elements print empty. -/
  jsToStringElems : List JSVal → List String
  | [] => []
  | .undefined :: rest => "" :: jsToStringElems rest
  | .null :: rest => "" :: jsToStringElems rest
  | v :: rest => jsToString v :: jsToStringElems rest

/-- Does `cs` start with `ps`? -/
def startsWithL : List Char → List Char → Bool
  | _, [] => true
  | [], _ :: _ => false
  | c :: cs, p :: ps => c == p && startsWithL cs ps

/-- Replace the first occurrence of `pat` (nonempty) in `cs` by `repl`;
`none` when `pat` does not occur. -/
def replFirstL (cs pat repl : List Char) : Option (List Char) :=
  match cs with
  | [] => none
  | c :: rest =>
      if startsWithL (c :: rest) pat then some (repl ++ (c :: rest).drop pat.length)
      else
        match replFirstL rest pat repl with
        | none => none
        | some r => some (c :: r)

/-- First occurrence of `pat` in `s` replaced by `repl` — JavaScript
`String.prototype.replace` with a string pattern (the pattern here is
always the nonempty `':' + key`; an empty pattern prepends, as in
JavaScript). -/
def replaceFirst (s pat repl : String) : String :=
  if pat.data.isEmpty then repl ++ s
  else
    match replFirstL s.data pat.data repl.data with
    | none => s
    | some r => String.mk r

/-- Source `replaceUrlParams(url, params)`: `angular.forEach` over the
extraction result (a no-op on `null`; own keys of a raw object; elements
with numeric indices for a raw array; the built entries otherwise — the
prototype `$$missing` sentinel is not an own key and is never visited). -/
def replaceUrlParams (url : String) (ps : Option EP) : String :=
  let step := fun (u : String) (kv : String × JSVal) =>
    replaceFirst u (":" ++ kv.1) (jsToString kv.2)
  match ps with
  | none => url
  | some (.built vs _) => vs.foldl step url
  | some (.raw (.obj fs)) => fs.foldl step url
  | some (.raw (.arr es)) =>
      (es.enum.map (fun p => (toString p.1, p.2))).foldl step url
  | some (.raw _) => url

/-- A `Resource` instance: its own enumerable properties in insertion
order.  The reserved slots `$value`, `$$length` and `$$unresolved` live in
`fields` like in the source (the `$promise` slot holds a promise object,
which is not a `JSVal`; it is tracked by the settlement functions below and
is deleted by `$unwrap` in any case, so it is not recorded here). -/
structure ResObj where
  fields : List (String × JSVal)

/-- JavaScript `this.hasOwnProperty(k)`. -/
def ResObj.hasField (r : ResObj) (k : String) : Bool :=
  (r.fields.lookup k).isSome

/-- Own-property read (absent keys read as `undefined`). -/
def ResObj.getField (r : ResObj) (k : String) : JSVal :=
  (r.fields.lookup k).getD .undefined

/-- JavaScript `delete this[k]`. -/
def removeField (fs : List (String × JSVal)) (k : String) : List (String × JSVal) :=
  fs.filter (fun kv => kv.1 ≠ k)

/-- Index keys `"0"`, `"1"`, ... of an array's elements, in order. -/
def indexFields (es : List JSVal) : List (String × JSVal) :=
  es.enum.map (fun p => (toString p.1, p.2))

/-- The body of `function Resource(data)`, applied to an existing instance
(`Resource.call(resource, data)`; construction runs it on an empty shell):
null/undefined is a no-op, keyed data is merged key by key (arrays also
record their length under `$$length`), anything else is boxed under
`$value`. -/
def ResObj.resourceCall (r : ResObj) (data : JSVal) : ResObj :=
  match data with
  | .undefined => r
  | .null => r
  | .obj fs => ⟨fs.foldl (fun acc kv => setField acc kv.1 kv.2) r.fields⟩
  | .arr es =>
      let fs := (indexFields es).foldl (fun acc kv => setField acc kv.1 kv.2) r.fields
      ⟨setField fs "$$length" (.num es.length)⟩
  | v => ⟨setField r.fields "$value" v⟩

/-- Source `new Resource(data)`. -/
def ResObj.construct (data : JSVal) : ResObj :=
  ResObj.resourceCall ⟨[]⟩ data

/-- Source `AbstractResource.call(this, promise)`: attaches a pending promise and
sets the resolution flag. -/
def ResObj.markUnresolved (r : ResObj) : ResObj :=
  ⟨setField r.fields "$$unresolved" (.bool true)⟩

/-- Source `AbstractResource.call(this, true)` (the `.finally` finalizer):
`delete this.$$unresolved`. -/
def ResObj.clearUnresolved (r : ResObj) : ResObj :=
  ⟨removeField r.fields "$$unresolved"⟩

/-- Truthiness of `this.$$unresolved`. -/
def ResObj.unresolvedFlag (r : ResObj) : Bool :=
  truthy (r.getField "$$unresolved")

/-- Array element assignment `a[i] = v` on a possibly shorter array:
holes created by growth read as `undefined`. -/
def writeAt : List JSVal → Nat → JSVal → List JSVal
  | [], 0, v => [v]
  | [], n + 1, v => .undefined :: writeAt [] n v
  | _ :: rest, 0, v => v :: rest
  | x :: rest, n + 1, v => x :: writeAt rest n v

/-- Angular `angular.extend([], this)` restricted to index keys: rebuilding the
array that `$unwrap` returns for an array-mode instance (non-index
properties assigned onto a JavaScript array are not representable in
`JSVal.arr` and are dropped). -/
def buildArr (fs : List (String × JSVal)) : List JSVal :=
  fs.foldl
    (fun acc kv =>
      if isCanonicalIndex kv.1 then writeAt acc (digitsToNat kv.1) kv.2 else acc)
    []

/-- Source `AbstractResource.prototype.$unwrap`. -/
def ResObj.unwrap (r : ResObj) : JSVal :=
  if r.hasField "$value" then r.getField "$value"
  else
    let isArr := r.hasField "$$length"
    let fs := removeField (removeField r.fields "$promise") "$$unresolved"
    if isArr then .arr (buildArr (removeField fs "$$length"))
    else .obj fs

/-- Asynchronous rejection reasons: arbitrary JavaScript values from the
transport or an interceptor, or an error thrown inside a `.then` callback. -/
inductive Reason where
  | js (v : JSVal)
  | err (e : JsErr)

/-- A response object together with its reference identity (the numeric tag
stands for the object's address; `rawResponse === response` is tag
equality). -/
structure TaggedVal where
  tag : Nat
  val : JSVal

/-- A fully merged action definition, as produced at factory-construction
time by `extend({method: name}, actionsDefaults[name], action)`. -/
structure ActionDef where
  method : String
  subRoute : Option String := none
  isArray : Bool := false
  ignoreResponse : Bool := false
  params : PSpec := .undefined
  queryParams : PSpec := .undefined
  hasData : Bool := false
  postProcess : Option (JSVal → Except Reason JSVal) := none
  skipOnMissingParams : Bool := false

/-- An action definition as written by the user (or as an entry of
`actionsDefaults`): every property may be absent. -/
structure ActionInput where
  method : Option String := none
  subRoute : Option String := none
  isArray : Option Bool := none
  ignoreResponse : Option Bool := none
  params : Option PSpec := none
  queryParams : Option PSpec := none
  hasData : Option Bool := none
  postProcess : Option (JSVal → Except Reason JSVal) := none
  skipOnMissingParams : Option Bool := none

/-- Source `extend({method: name}, actionsDefaults[name], action)`: later
arguments win key by key; the bare `{method: name}` seed supplies the
fallback method.  `dflt = none` models an absent `actionsDefaults[name]`
entry. -/
def mergeAction (name : String) (dflt : Option ActionInput) (act : ActionInput) :
    ActionDef :=
  let d := dflt.getD {}
  { method := ((act.method <|> d.method).getD name)
    subRoute := act.subRoute <|> d.subRoute
    isArray := ((act.isArray <|> d.isArray).getD false)
    ignoreResponse := ((act.ignoreResponse <|> d.ignoreResponse).getD false)
    params := ((act.params <|> d.params).getD .undefined)
    queryParams := ((act.queryParams <|> d.queryParams).getD .undefined)
    hasData := ((act.hasData <|> d.hasData).getD false)
    postProcess := act.postProcess <|> d.postProcess
    skipOnMissingParams := ((act.skipOnMissingParams <|> d.skipOnMissingParams).getD false) }

/-- Upper-casing for the case-insensitive method test. -/
def upper (s : String) : String :=
  String.mk (s.data.map Char.toUpper)

/-- Source `action.hasData || /^(POST|PUT|PATCH)$/i.test(action.method)`. -/
def hasBody (a : ActionDef) : Bool :=
  a.hasData || upper a.method = "POST" || upper a.method = "PUT"
    || upper a.method = "PATCH"

/-- The per-factory configuration the action closures read: the base
url + route, and the interceptor limit (`extend({url: baseUrl + route},
defaultConfig, resourceConfig)`). -/
structure ResourceCfg where
  url : String
  interceptorLimit : Nat

/-- The request configuration `performAction` hands to the interceptor
pipeline and the transport. -/
structure ReqConfig where
  method : String
  url : String
  data : Option JSVal := none
  params : Option EP := none
  interceptorLimit : Nat

/-- An instantiated `$http`-style interceptor: optional handlers for the
request and response phases.  A handler returning `.error` models both a
rejection it returns and an exception it throws. -/
structure Interceptor where
  request : Option (ReqConfig → Except Reason ReqConfig) := none
  requestError : Option (Reason → Except Reason ReqConfig) := none
  response : Option (TaggedVal → Except Reason TaggedVal) := none
  responseError : Option (Reason → Except Reason TaggedVal) := none

/-- JavaScript `promise.then(onFulfilled, onRejected)` on a settled outcome, with
possibly-absent handlers (an absent handler passes the outcome through). -/
def thenStep {α : Type} (o : Except Reason α)
    (onF : Option (α → Except Reason α)) (onR : Option (Reason → Except Reason α)) :
    Except Reason α :=
  match o with
  | .ok v =>
      match onF with
      | some f => f v
      | none => .ok v
  | .error e =>
      match onR with
      | some f => f e
      | none => .error e

/-- Source `throughRequestInterceptors(promise, limit)`: the first `limit`
interceptors, in registration order, each spliced in only if it has a
request-side handler. -/
def reqPhase (ics : List Interceptor) (limit : Nat) (o : Except Reason ReqConfig) :
    Except Reason ReqConfig :=
  (ics.take limit).foldl
    (fun o ic =>
      if ic.request.isSome || ic.requestError.isSome then
        thenStep o ic.request ic.requestError
      else o)
    o

/-- Source `throughResponseInterceptors(promise, limit)`. -/
def respPhase (ics : List Interceptor) (limit : Nat) (o : Except Reason TaggedVal) :
    Except Reason TaggedVal :=
  (ics.take limit).foldl
    (fun o ic =>
      if ic.response.isSome || ic.responseError.isSome then
        thenStep o ic.response ic.responseError
      else o)
    o

/-- The `$http(config).then(response => { rawResponse = response; return
response; })` step: invokes the transport on a fulfilled config and captures
the raw response's identity. -/
def httpStep (transport : ReqConfig → Except Reason TaggedVal)
    (o : Except Reason ReqConfig) : Option Nat × Except Reason TaggedVal :=
  match o with
  | .error e => (none, .error e)
  | .ok cfg =>
      match transport cfg with
      | .ok tv => (some tv.tag, .ok tv)
      | .error e => (none, .error e)

/-- The `promise.then(response => rawResponse === response ? response.data
: response)` step: unwraps to `response.data` exactly when the response
phase's value is reference-identical to the captured raw response. -/
def unwrapMatch (rawTag : Option Nat) (resp : Except Reason TaggedVal) :
    Except Reason JSVal :=
  match resp with
  | .ok tv => .ok (if rawTag = some tv.tag then getProp tv.val "data" else tv.val)
  | .error e => .error e

/-- Source `if (action.postProcess) promise = promise.then(action.postProcess)`. -/
def ppStep (pp : Option (JSVal → Except Reason JSVal)) (o : Except Reason JSVal) :
    Except Reason JSVal :=
  match pp with
  | some f =>
      match o with
      | .ok v => f v
      | .error e => .error e
  | none => o

/-- The non-skipped tail of `performAction`: request interceptor phase,
transport, response interceptor phase, the identity-checked unwrap to
`response.data`, and the optional `postProcess`. -/
def runPipeline (ics : List Interceptor) (transport : ReqConfig → Except Reason TaggedVal)
    (cfg : ReqConfig) (pp : Option (JSVal → Except Reason JSVal)) :
    Except Reason JSVal :=
  let st := httpStep transport (reqPhase ics cfg.interceptorLimit (.ok cfg))
  ppStep pp (unwrapMatch st.1 (respPhase ics cfg.interceptorLimit st.2))

/-- What the synchronous part of `performAction` decides: either the
`skipOnMissingParams` short-circuit (`$q.when(null)` without touching the
pipeline) or a request configuration to run through it. -/
inductive Plan where
  | skipNull
  | go (cfg : ReqConfig)

/-- The synchronous prefix of `performAction(data, args)` (source lines up
to the `skipOnMissingParams` check): builds the action config, extracts and
substitutes url params, extracts query params.  `extractParams` may throw
synchronously. -/
def performActionPlan (action : ActionDef) (rc : ResourceCfg) (data : JSVal)
    (args : List JSVal) : Except JsErr Plan := do
  let url0 :=
    match action.subRoute with
    | some s => if s = "" then rc.url else rc.url ++ s
    | none => rc.url
  let urlParams ← extractParams action.params args data
  let url := replaceUrlParams url0 urlParams
  let queryParams ← extractParams action.queryParams args data
  if action.skipOnMissingParams && (missingOpt urlParams || missingOpt queryParams) then
    return .skipNull
  else
    return .go
      { method := action.method
        url := url
        data := if hasBody action then some data else none
        params := queryParams
        interceptorLimit := rc.interceptorLimit }

/-- Settlement of the promise `performAction` returned: the skip
short-circuit resolves with `null` for every transport and interceptor
list; otherwise the pipeline runs. -/
def settleOutcome (ics : List Interceptor)
    (transport : ReqConfig → Except Reason TaggedVal) (action : ActionDef) :
    Plan → Except Reason JSVal
  | .skipNull => .ok .null
  | .go cfg => runPipeline ics transport cfg action.postProcess

/-- What a settled action promise carries: the raw data (the
`ignoreResponse` path), the single wrapper itself, or the wrapper array
itself (identity expressed by returning exactly the updated object). -/
inductive PVal where
  | val (v : JSVal)
  | res (r : ResObj)
  | resArr (rs : List ResObj)

/-- The synchronous result of a static action call `Resource[name](...)`:
the wrapper (or wrapper array) handed back to the caller, with its
resolution flag, plus the plan for the outstanding request. -/
inductive CallResult where
  | single (resource : ResObj) (plan : Plan)
  | collection (resources : List ResObj) (unresolvedFlag : Bool) (plan : Plan)

/-- The `data` a static call works with: the first argument when the
action carries a body, `null` otherwise. -/
def callBodyData (hb : Bool) (callArgs : List JSVal) : JSVal :=
  if hb then callArgs.getD 0 .undefined else .null

/-- Source `Array.prototype.slice.call(arguments, hasBody)`. -/
def callExtraArgs (hb : Bool) (callArgs : List JSVal) : List JSVal :=
  if hb then callArgs.drop 1 else callArgs

/-- The synchronous part of `Resource[name]` (source lines 297-333 minus
the settlement callbacks): argument slicing, the missing-body check, eager
wrapper construction, `performAction`'s synchronous prefix, and
`AbstractResource.call` attaching the pending promise. -/
def staticCallSync (name : String) (action : ActionDef) (rc : ResourceCfg)
    (callArgs : List JSVal) : Except JsErr CallResult :=
  let hb := hasBody action
  let args := callExtraArgs hb callArgs
  let data := callBodyData hb callArgs
  if hb && isNullish data then .error (missingBodyError name action.method)
  else if action.isArray then
    match data, hb with
    | .arr items, true => do
        let plan ← performActionPlan action rc data args
        return .collection (items.map ResObj.construct) true plan
    | _, true => .error (expectedArrayError name)
    | _, false => do
        let plan ← performActionPlan action rc data args
        return .collection [] true plan
  else do
    let resource := ResObj.construct data
    let plan ← performActionPlan action rc data args
    return .single resource.markUnresolved plan

/-- Source `updateResource(resource)`'s callback, applied to the fulfilled
value: with a body and `ignoreResponse` the raw data passes through;
otherwise `Resource.call(resource, data)` merges in place and the resource
itself is the promise value. -/
def updateResourceFn (action : ActionDef) (r : ResObj) (v : JSVal) : ResObj × PVal :=
  if hasBody action && action.ignoreResponse then (r, .val v)
  else
    let r2 := r.resourceCall v
    (r2, .res r2)

/-- Settlement of a singular call:
`promise.finally(AbstractResource.bind(resource, true)).then(updateResource(resource))`.
The finalizer clears the resolution flag on fulfillment and rejection
alike; a rejection then passes through the `.then` unchanged. -/
def settleSingle (action : ActionDef) (r : ResObj) (out : Except Reason JSVal) :
    ResObj × Except Reason PVal :=
  let r1 := r.clearUnresolved
  match out with
  | .error e => (r1, .error e)
  | .ok v =>
      let (r2, pv) := updateResourceFn action r1 v
      (r2, .ok pv)

/-- Source `Resource.call(resources[index], item)` past the end of the wrapper
array: `this` is `undefined` (strict mode), so the constructor body either
returns without writing (nullish data, or a keyed object with no own keys)
or raises a TypeError on its first property write. -/
def callOnMissing : JSVal → Option JsErr
  | .undefined => none
  | .null => none
  | .obj [] => none
  | .obj ((k, _) :: _) => some (undefWriteError k)
  | .arr [] => some (undefWriteError "$$length")
  | .arr (_ :: _) => some (undefWriteError "0")
  | _ => some (undefWriteError "$value")

/-- The first engine TypeError raised while `forEach` keeps calling
`modifyResource` beyond the pre-created wrappers (nullish items are
silently skipped by the constructor's early return). -/
def firstOverflowError : List JSVal → Option JsErr
  | [] => none
  | v :: rest =>
      match callOnMissing v with
      | some e => some e
      | none => firstOverflowError rest

/-- Source `data.forEach(modifyResource)` for a body-carrying collection action:
each response element is merged into the pre-created wrapper at the same
index; wrappers already updated stay updated when a later index raises. -/
def modifyAll : List ResObj → List JSVal → List ResObj × Option JsErr
  | rs, [] => (rs, none)
  | [], items => ([], firstOverflowError items)
  | r :: rs, item :: rest =>
      let (rs2, e) := modifyAll rs rest
      (r.resourceCall item :: rs2, e)

/-- Settlement of a collection call:
`promise.finally(AbstractResource.bind(resources, true)).then(updateResourceArray(resources, ...))`.
Returns the wrapper array, the array's resolution flag (always cleared by
the finalizer) and the promise outcome. -/
def settleCollection (name : String) (action : ActionDef) (rs : List ResObj)
    (out : Except Reason JSVal) : List ResObj × Bool × Except Reason PVal :=
  match out with
  | .error e => (rs, false, .error e)
  | .ok v =>
      if hasBody action && action.ignoreResponse then (rs, false, .ok (.val v))
      else if isNullish v then (rs, false, .ok (.resArr rs))
      else
        match v with
        | .arr items =>
            if hasBody action then
              match modifyAll rs items with
              | (rs2, none) => (rs2, false, .ok (.resArr rs2))
              | (rs2, some e) => (rs2, false, .error (.err e))
            else
              let rs2 := rs ++ items.map ResObj.construct
              (rs2, false, .ok (.resArr rs2))
        | _ => (rs, false, .error (.err (expectedArrayError name)))

/-- The synchronous part of the instance call `Resource.prototype[$name]`:
the reentrancy guard, unwrapping `this` as body data, `performAction`'s
synchronous prefix (with the full `arguments`), and re-marking `this`
unresolved. -/
def instanceCallSync (name : String) (action : ActionDef) (rc : ResourceCfg)
    (r : ResObj) (callArgs : List JSVal) : Except JsErr (ResObj × Plan) :=
  if r.unresolvedFlag then .error (unresolvedRequest name)
  else do
    let data := r.unwrap
    let plan ← performActionPlan action rc data callArgs
    return (r.markUnresolved, plan)

/-- The reserved bookkeeping slot names of a wrapper (`$value` is the
boxed-value slot; the other three are deleted by `$unwrap`). -/
def reservedKeys : List String := ["$promise", "$$unresolved", "$$length", "$value"]

/-- A concrete body-carrying collection action (method `post`, `isArray`)
and the three wrappers its call with body `[1, 2, 3]` pre-creates. -/
def actC1 : ActionDef := { method := "post", isArray := true }

/-- The wrapper array `staticCallSync` pre-creates for body `[1, 2, 3]`. -/
def rsC1 : List ResObj :=
  [ResObj.construct (.num 1), ResObj.construct (.num 2), ResObj.construct (.num 3)]

/-! ### Helper lemmas -/

theorem lookup_setField_self (fs : List (String × JSVal)) (k : String) (v : JSVal) :
    (setField fs k v).lookup k = some v := by
  induction fs with
  | nil => simp [setField, List.lookup]
  | cons kv rest ih =>
      obtain ⟨k', v'⟩ := kv
      by_cases h : k' = k
      · simp [setField, h, List.lookup]
      · simp only [setField, if_neg h, List.lookup]
        have hbeq : (k == k') = false := by
          simp [beq_iff_eq]; exact fun hk => h hk.symm
        simp [hbeq, ih]

theorem setField_of_not_mem (fs : List (String × JSVal)) (k : String) (v : JSVal)
    (h : k ∉ fs.map Prod.fst) : setField fs k v = fs ++ [(k, v)] := by
  induction fs with
  | nil => simp [setField]
  | cons kv rest ih =>
      obtain ⟨k', v'⟩ := kv
      simp only [List.map_cons, List.mem_cons] at h
      push_neg at h
      have hne : k' ≠ k := fun he => h.1 he.symm
      simp only [setField, if_neg hne, List.cons_append]
      rw [ih h.2]

theorem foldl_setField_nodup (fs : List (String × JSVal)) (acc : List (String × JSVal))
    (hdisj : ∀ k ∈ fs.map Prod.fst, k ∉ acc.map Prod.fst)
    (hnodup : (fs.map Prod.fst).Nodup) :
    fs.foldl (fun acc kv => setField acc kv.1 kv.2) acc = acc ++ fs := by
  induction fs generalizing acc with
  | nil => simp
  | cons kv rest ih =>
      obtain ⟨k, v⟩ := kv
      simp only [List.map_cons, List.nodup_cons] at hnodup
      have hk : k ∉ acc.map Prod.fst := hdisj k (by simp)
      simp only [List.foldl_cons]
      rw [setField_of_not_mem acc k v hk]
      rw [ih (acc ++ [(k, v)])]
      · simp
      · intro k' hk'
        simp only [List.map_append, List.mem_append, List.map_cons, List.map_nil]
        push_neg
        refine ⟨fun hin => hdisj k' (by simp [hk']) hin, ?_⟩
        simp only [List.mem_singleton]
        intro he
        exact hnodup.1 (he ▸ hk')
      · exact hnodup.2

theorem lookup_eq_none_of_not_mem (fs : List (String × JSVal)) (k : String)
    (h : k ∉ fs.map Prod.fst) : fs.lookup k = none := by
  induction fs with
  | nil => rfl
  | cons kv rest ih =>
      simp only [List.map_cons, List.mem_cons] at h
      push_neg at h
      have hbeq : (k == kv.1) = false := by simp [beq_iff_eq]; exact h.1
      simp [List.lookup, hbeq, ih h.2]

theorem removeField_of_not_mem (fs : List (String × JSVal)) (k : String)
    (h : ∀ p ∈ fs, p.1 ≠ k) : removeField fs k = fs := by
  unfold removeField
  rw [List.filter_eq_self]
  intro p hp
  simpa using h p hp

theorem lookup_removeField_self (fs : List (String × JSVal)) (k : String) :
    (removeField fs k).lookup k = none := by
  induction fs with
  | nil => rfl
  | cons kv rest ih =>
      by_cases h : kv.1 = k
      · simpa [removeField, h] using ih
      · have hbeq : (k == kv.1) = false := by
          simp [beq_iff_eq]; exact fun hk => h hk.symm
        simpa [removeField, h, List.lookup, hbeq] using ih

theorem clearUnresolved_flag (r : ResObj) : r.clearUnresolved.unresolvedFlag = false := by
  simp [ResObj.clearUnresolved, ResObj.unresolvedFlag, ResObj.getField,
    lookup_removeField_self, truthy]

theorem markUnresolved_flag (r : ResObj) : r.markUnresolved.unresolvedFlag = true := by
  simp [ResObj.markUnresolved, ResObj.unresolvedFlag, ResObj.getField,
    lookup_setField_self, truthy]

theorem resourceCall_null (r : ResObj) : r.resourceCall .null = r := rfl

theorem modifyAll_of_le (items : List JSVal) (rs : List ResObj)
    (h : items.length ≤ rs.length) :
    modifyAll rs items =
      (List.zipWith ResObj.resourceCall rs items ++ rs.drop items.length, none) := by
  induction items generalizing rs with
  | nil => cases rs <;> simp [modifyAll]
  | cons item rest ih =>
      cases rs with
      | nil => simp at h
      | cons r rs' =>
          simp only [List.length_cons, Nat.add_le_add_iff_right] at h
          simp [modifyAll, ih rs' h]

theorem extractParams_error_shape (ps : PSpec) (args : List JSVal) (data : JSVal)
    (e : JsErr) (h : extractParams ps args data = .error e) : ∃ m, e = .typeError m := by
  cases ps with
  | undefined => simp [extractParams] at h
  | strSpec s =>
      simp only [extractParams] at h
      by_cases ho : isObjectVal (extract args data s data) = true
      · simp [ho] at h
      · simp only [Bool.not_eq_true] at ho
        simp [ho, expectedTypeError] at h
        exact ⟨_, h.symm⟩
  | mapSpec entries => simp [extractParams] at h
  | badSpec v =>
      simp [extractParams, expectedTypeError] at h
      exact ⟨_, h.symm⟩

theorem performActionPlan_error_shape (action : ActionDef) (rc : ResourceCfg)
    (data : JSVal) (args : List JSVal) (e : JsErr)
    (h : performActionPlan action rc data args = .error e) : ∃ m, e = .typeError m := by
  unfold performActionPlan at h
  cases hu : extractParams action.params args data with
  | error eu =>
      rw [hu] at h
      simp only [bind, Except.bind] at h
      cases h
      exact extractParams_error_shape _ _ _ _ hu
  | ok up =>
      rw [hu] at h
      simp only [bind, Except.bind] at h
      cases hq : extractParams action.queryParams args data with
      | error eq' =>
          rw [hq] at h
          cases h
          exact extractParams_error_shape _ _ _ _ hq
      | ok qp =>
          rw [hq] at h
          by_cases hs : (action.skipOnMissingParams && (missingOpt up || missingOpt qp)) = true
          · simp [hs, pure, Except.pure] at h
          · simp only [Bool.not_eq_true] at hs
            simp [hs, pure, Except.pure] at h

/-- Scratch examples while developing: -/
example : (ResObj.construct (.obj [("a", .num 1), ("b", .str "x")])).unwrap =
    .obj [("a", .num 1), ("b", .str "x")] := rfl
example : (ResObj.construct (.num 7)).unwrap = .num 7 := rfl
example : (ResObj.construct (.arr [.num 1, .num 2])).unwrap = .arr [.num 1, .num 2] := rfl
example : (ResObj.construct .null).fields = [] := rfl
example : ((ResObj.construct .null).markUnresolved).unresolvedFlag = true := rfl
example : ((ResObj.construct .null).markUnresolved).clearUnresolved.unresolvedFlag = false := rfl
example : extract [.num 0, .num 1, .num 5] .undefined "@2" .null = .num 5 := rfl
example : extract [] (.obj [("a", .num 3)]) "@a" .null = .num 3 := rfl
example : extract [.num 0, .num 1, .num 2, .obj [("a", .obj [("b", .num 9)])]]
    .undefined "@3.a.b" .null = .num 9 := rfl
example : extract [] .undefined "=" (.num 4) = .num 4 := rfl
example : extract [] .undefined "plain" .null = .str "plain" := rfl
example : extractParams (.mapSpec [("id", .jsE (.str "@0"))]) [] .undefined =
    .ok (some (.built [("id", .undefined)] true)) := rfl

/-! ### Sanity checks for the call machinery -/

example : hasBody { method := "get" } = false := rfl
example : hasBody { method := "post" } = true := rfl
example : hasBody { method := "get", hasData := true } = true := rfl
example :
    performActionPlan { method := "get" } { url := "/u", interceptorLimit := 0 } .null [] =
      .ok (.go { method := "get", url := "/u", data := none, params := none,
                 interceptorLimit := 0 }) := rfl
example :
    performActionPlan
      { method := "get", params := .mapSpec [("id", .jsE (.str "@0.id"))] }
      { url := "/user/:id", interceptorLimit := 0 } .null [.obj [("id", .num 5)]] =
      .ok (.go { method := "get", url := "/user/5", data := none,
                 params := none, interceptorLimit := 0 }) := rfl

/-! ### Claims -/

/-- Claim C7: for every action and every call, a `params`/`queryParams`
entry whose mapper string is `"@2"` extracts exactly call-argument index 2
(`undefined` past the end of the argument list), irrespective of the body
contents (`data` is universally quantified, and the default the entry loop
passes is ignored by the `@`-form). -/
theorem mapper_at2_extracts_arg2 (k : String) (args : List JSVal) (data dflt : JSVal) :
    extract args data "@2" dflt = args.getD 2 .undefined ∧
    extractParams (.mapSpec [(k, .jsE (.str "@2"))]) args data =
      .ok (some (.built [(k, args.getD 2 .undefined)] (isNullish (args.getD 2 .undefined)))) :=
  ⟨rfl, rfl⟩

/-- Claim C8: a `params`/`queryParams` entry whose mapper string is
`"@3.a.b"` extracts the dotted lookup `a.b` applied to call-argument 3;
when argument 3 is undefined, or the intermediate value at key `a` is
undefined, the extracted value is `undefined`, and a nullish extracted
value sets the extraction's missing flag. -/
theorem mapper_at3_dotted_lookup (k : String) (args : List JSVal) (data dflt : JSVal) :
    extract args data "@3.a.b" dflt = lookupDottedPath (args.getD 3 .undefined) "a.b" ∧
    extractParams (.mapSpec [(k, .jsE (.str "@3.a.b"))]) args data =
      .ok (some (.built [(k, lookupDottedPath (args.getD 3 .undefined) "a.b")]
        (isNullish (lookupDottedPath (args.getD 3 .undefined) "a.b")))) ∧
    (args.getD 3 .undefined = .undefined → lookupDottedPath (args.getD 3 .undefined) "a.b" = .undefined) ∧
    (∀ x : JSVal, getProp x "a" = .undefined → lookupDottedPath x "a.b" = .undefined) := by
  refine ⟨rfl, rfl, ?_, ?_⟩
  · intro h
    rw [h]
    rfl
  · intro x h
    have hsplit : lookupDottedPath x "a.b" = dotStep (dotStep x "a") "b" := rfl
    have h1 : dotStep x "a" = .undefined := by
      cases x <;> first | rfl | exact h
    rw [hsplit, h1]
    rfl

theorem mapper_at3_dotted_lookup_witness :
    extract [.num 0, .num 1, .num 2, .obj [("a", .obj [("b", .num 9)])]]
      (.obj []) "@3.a.b" .null = .num 9 ∧
    lookupDottedPath (([] : List JSVal).getD 3 .undefined) "a.b" = .undefined :=
  ⟨(mapper_at3_dotted_lookup "id"
      [.num 0, .num 1, .num 2, .obj [("a", .obj [("b", .num 9)])]]
      (.obj []) .null).1.trans rfl,
   (mapper_at3_dotted_lookup "id" [] .undefined .null).2.2.1 rfl⟩

/-- Claim C5: an instance-level `$action` call on a resource whose
`$$unresolved` flag is set throws the reentrancy error synchronously — the
guard is the method's first statement, so no request configuration is built
and no transport is invoked. -/
theorem instance_call_while_unresolved_throws (name : String) (action : ActionDef)
    (rc : ResourceCfg) (r : ResObj) (callArgs : List JSVal)
    (h : r.unresolvedFlag = true) :
    instanceCallSync name action rc r callArgs = .error (unresolvedRequest name) := by
  unfold instanceCallSync
  rw [h]
  rfl

theorem instance_call_while_unresolved_throws_witness :
    (ResObj.construct (.obj [("id", .num 5)])).markUnresolved.unresolvedFlag = true ∧
    instanceCallSync "get" { method := "get" } { url := "/u", interceptorLimit := 0 }
      (ResObj.construct (.obj [("id", .num 5)])).markUnresolved [] =
      .error (unresolvedRequest "get") :=
  ⟨rfl, instance_call_while_unresolved_throws "get" { method := "get" }
    { url := "/u", interceptorLimit := 0 }
    (ResObj.construct (.obj [("id", .num 5)])).markUnresolved [] rfl⟩

theorem performActionPlan_go_shape (action : ActionDef) (rc : ResourceCfg)
    (data : JSVal) (args : List JSVal) (cfg : ReqConfig)
    (h : performActionPlan action rc data args = .ok (.go cfg)) :
    cfg.method = action.method ∧ cfg.interceptorLimit = rc.interceptorLimit := by
  unfold performActionPlan at h
  cases hu : extractParams action.params args data with
  | error eu => rw [hu] at h; simp [bind, Except.bind] at h
  | ok up =>
      rw [hu] at h
      simp only [bind, Except.bind] at h
      cases hq : extractParams action.queryParams args data with
      | error eq2 => rw [hq] at h; simp at h
      | ok qp =>
          rw [hq] at h
          by_cases hs :
            (action.skipOnMissingParams && (missingOpt up || missingOpt qp)) = true
          · simp [hs, pure, Except.pure] at h
          · simp only [Bool.not_eq_true] at hs
            simp only [hs, Bool.false_eq_true, if_false, pure, Except.pure,
              Except.ok.injEq, Plan.go.injEq] at h
            rw [← h]
            exact ⟨rfl, rfl⟩

/-- Claim C10: when an action definition omits `method` and the per-name
defaults supply none either, the merged method is the action's own name;
the precedence is action definition over `actionsDefaults` over the name
fallback; and the request configuration built by `performAction` carries
exactly the merged method. -/
theorem method_merge_precedence (name : String) (dflt : Option ActionInput)
    (act : ActionInput) :
    (act.method = none → (dflt.getD {}).method = none →
      (mergeAction name dflt act).method = name) ∧
    (∀ m, act.method = some m → (mergeAction name dflt act).method = m) ∧
    (∀ m, act.method = none → (dflt.getD {}).method = some m →
      (mergeAction name dflt act).method = m) ∧
    (∀ (rc : ResourceCfg) (data : JSVal) (args : List JSVal) (cfg : ReqConfig),
      performActionPlan (mergeAction name dflt act) rc data args = .ok (.go cfg) →
      cfg.method = (mergeAction name dflt act).method) := by
  refine ⟨?_, ?_, ?_, ?_⟩
  · intro h1 h2
    simp [mergeAction, h1, h2]
  · intro m h1
    simp [mergeAction, h1]
  · intro m h1 h2
    simp [mergeAction, h1, h2]
  · intro rc data args cfg h
    exact (performActionPlan_go_shape _ _ _ _ _ h).1

theorem method_merge_precedence_witness :
    (mergeAction "get" none {}).method = "get" ∧
    (mergeAction "query" (some { method := some "GET" }) {}).method = "GET" ∧
    (mergeAction "save" none { method := some "put" }).method = "put" :=
  ⟨(method_merge_precedence "get" none {}).1 rfl rfl,
   (method_merge_precedence "query" (some { method := some "GET" }) {}).2.2.1 "GET" rfl rfl,
   (method_merge_precedence "save" none { method := some "put" }).2.1 "put" rfl⟩

theorem unwrap_plain_fields (fs : List (String × JSVal))
    (hv : fs.lookup "$value" = none) (hl : fs.lookup "$$length" = none)
    (hp : removeField fs "$promise" = fs) (hu : removeField fs "$$unresolved" = fs) :
    (⟨fs⟩ : ResObj).unwrap = .obj fs := by
  unfold ResObj.unwrap
  simp [ResObj.hasField, hv, hl, hp, hu]

/-- Claim C9: a wrapper constructed from a plain keyed object containing
none of the reserved keys unwraps to the object itself, in particular with
no bookkeeping slot present; a wrapper constructed from a non-object
primitive is boxed and unwraps to the value itself. -/
theorem construct_unwrap_roundtrip (fs : List (String × JSVal))
    (hnodup : (fs.map Prod.fst).Nodup)
    (hres : ∀ p ∈ fs, p.1 ∉ reservedKeys) :
    (ResObj.construct (.obj fs)).unwrap = .obj fs ∧
    (∀ p ∈ fs, p.1 ∉ (["$promise", "$$unresolved", "$$length"] : List String)) ∧
    (∀ n : Int, (ResObj.construct (.num n)).unwrap = .num n) ∧
    (∀ s : String, (ResObj.construct (.str s)).unwrap = .str s) ∧
    (∀ b : Bool, (ResObj.construct (.bool b)).unwrap = .bool b) := by
  have hnk : ∀ k, k ∈ reservedKeys → k ∉ fs.map Prod.fst := by
    intro k hk hmem
    obtain ⟨p, hp, hpk⟩ := List.mem_map.mp hmem
    exact hres p hp (hpk ▸ hk)
  have hcon : ResObj.construct (.obj fs) = ⟨fs⟩ := by
    show ResObj.resourceCall ⟨[]⟩ (.obj fs) = ⟨fs⟩
    simp only [ResObj.resourceCall]
    congr 1
    simpa using foldl_setField_nodup fs [] (by simp) hnodup
  have hrm : ∀ k, k ∈ reservedKeys → removeField fs k = fs := by
    intro k hk
    apply removeField_of_not_mem
    intro p hp he
    exact hres p hp (he ▸ hk)
  refine ⟨?_, ?_, fun n => rfl, fun s => rfl, fun b => rfl⟩
  · rw [hcon]
    exact unwrap_plain_fields fs
      (lookup_eq_none_of_not_mem fs _ (hnk "$value" (by decide)))
      (lookup_eq_none_of_not_mem fs _ (hnk "$$length" (by decide)))
      (hrm "$promise" (by decide)) (hrm "$$unresolved" (by decide))
  · intro p hp hmem
    refine hres p hp ?_
    have h3 : p.1 = "$promise" ∨ p.1 = "$$unresolved" ∨ p.1 = "$$length" := by
      simpa using hmem
    rcases h3 with h | h | h <;> simp [reservedKeys, h]

theorem construct_unwrap_roundtrip_witness :
    (ResObj.construct (.obj [("a", .num 1), ("b", .str "x")])).unwrap =
      .obj [("a", .num 1), ("b", .str "x")] ∧
    (ResObj.construct (.num 7)).unwrap = .num 7 :=
  ⟨(construct_unwrap_roundtrip [("a", .num 1), ("b", .str "x")]
      (by decide) (by decide)).1,
   (construct_unwrap_roundtrip [] (by decide) (by decide)).2.2.1 7⟩

/-- Claim C2: with `skipOnMissingParams` set and either the path-parameter
or the query-parameter extraction signalling missing, `performAction`
returns the `$q.when(null)` plan before the pipeline is built: the settled
outcome is `.ok null` for every interceptor list and transport (neither is
consulted), and on settlement the wrapper is only un-flagged (a `null`
fulfillment merges nothing), so its resolution flag ends up cleared. -/
theorem skip_on_missing_params (action : ActionDef) (rc : ResourceCfg)
    (data : JSVal) (args : List JSVal) (up qp : Option EP)
    (hSkip : action.skipOnMissingParams = true)
    (hU : extractParams action.params args data = .ok up)
    (hQ : extractParams action.queryParams args data = .ok qp)
    (hMiss : (missingOpt up || missingOpt qp) = true) :
    performActionPlan action rc data args = .ok .skipNull ∧
    (∀ (ics : List Interceptor) (transport : ReqConfig → Except Reason TaggedVal),
      settleOutcome ics transport action .skipNull = .ok .null) ∧
    (∀ r : ResObj, (settleSingle action r (.ok .null)).1 = r.clearUnresolved ∧
      (settleSingle action r (.ok .null)).1.unresolvedFlag = false) := by
  refine ⟨?_, fun ics transport => rfl, fun r => ?_⟩
  · unfold performActionPlan
    rw [hU]
    simp only [bind, Except.bind]
    rw [hQ]
    simp [hSkip, hMiss, pure, Except.pure]
  · have h1 : (settleSingle action r (.ok .null)).1 = r.clearUnresolved := by
      unfold settleSingle updateResourceFn
      by_cases hb : (hasBody action && action.ignoreResponse) = true
      · simp [hb]
      · simp only [Bool.not_eq_true] at hb
        simp [hb, resourceCall_null]
    exact ⟨h1, h1 ▸ clearUnresolved_flag r⟩

theorem skip_on_missing_params_witness :
    performActionPlan
      { method := "get", skipOnMissingParams := true,
        params := .mapSpec [("id", .jsE (.str "@0"))] }
      { url := "/u/:id", interceptorLimit := 0 } .null [] = .ok .skipNull ∧
    settleOutcome [] (fun _ => .error (.js .undefined))
      { method := "get", skipOnMissingParams := true,
        params := .mapSpec [("id", .jsE (.str "@0"))] } .skipNull = .ok .null ∧
    (settleSingle
      { method := "get", skipOnMissingParams := true,
        params := .mapSpec [("id", .jsE (.str "@0"))] }
      (ResObj.construct .null).markUnresolved (.ok .null)).1.unresolvedFlag = false := by
  have h := skip_on_missing_params
    { method := "get", skipOnMissingParams := true,
      params := .mapSpec [("id", .jsE (.str "@0"))] }
    { url := "/u/:id", interceptorLimit := 0 } .null []
    (some (.built [("id", .undefined)] true)) none rfl rfl rfl rfl
  exact ⟨h.1, h.2.1 [] (fun _ => .error (.js .undefined)),
    (h.2.2 (ResObj.construct .null).markUnresolved).2⟩

/-- Claim C4: for a non-skipped invocation whose request phase and
transport succeed and whose response phase fulfills, the invoker unwraps to
`response.data` exactly when the value produced by the response phase is
reference-identical (same identity tag) to the raw transport response, and
otherwise returns the interceptor-produced replacement unchanged;
`postProcess`, when configured, applies to that result afterwards. -/
theorem response_identity_unwrap (ics : List Interceptor)
    (transport : ReqConfig → Except Reason TaggedVal) (cfg cfg2 : ReqConfig)
    (raw tv : TaggedVal) (pp : Option (JSVal → Except Reason JSVal))
    (hReq : reqPhase ics cfg.interceptorLimit (.ok cfg) = .ok cfg2)
    (hT : transport cfg2 = .ok raw)
    (hResp : respPhase ics cfg.interceptorLimit (.ok raw) = .ok tv) :
    runPipeline ics transport cfg pp =
      ppStep pp (.ok (if tv.tag = raw.tag then getProp tv.val "data" else tv.val)) := by
  have hst : httpStep transport (reqPhase ics cfg.interceptorLimit (.ok cfg)) =
      (some raw.tag, .ok raw) := by
    rw [hReq]
    simp [httpStep, hT]
  simp only [runPipeline, hst]
  rw [hResp]
  simp only [unwrapMatch]
  congr 2
  by_cases h : tv.tag = raw.tag
  · simp [h]
  · have hne : ¬(some raw.tag = some tv.tag) := by
      simp only [Option.some.injEq]
      exact fun he => h he.symm
    simp [h, hne]

theorem response_identity_unwrap_witness :
    runPipeline [{ response := some fun tv => .ok tv }]
      (fun _ => .ok ⟨0, .obj [("data", .num 5)]⟩)
      { method := "get", url := "/u", interceptorLimit := 1 } none = .ok (.num 5) ∧
    runPipeline [{ response := some fun _ => .ok ⟨1, .num 42⟩ }]
      (fun _ => .ok ⟨0, .obj [("data", .num 5)]⟩)
      { method := "get", url := "/u", interceptorLimit := 1 } none = .ok (.num 42) :=
  ⟨(response_identity_unwrap [{ response := some fun tv => .ok tv }]
      (fun _ => .ok ⟨0, .obj [("data", .num 5)]⟩)
      { method := "get", url := "/u", interceptorLimit := 1 }
      { method := "get", url := "/u", interceptorLimit := 1 }
      ⟨0, .obj [("data", .num 5)]⟩ ⟨0, .obj [("data", .num 5)]⟩ none
      rfl rfl rfl).trans rfl,
   (response_identity_unwrap [{ response := some fun _ => .ok ⟨1, .num 42⟩ }]
      (fun _ => .ok ⟨0, .obj [("data", .num 5)]⟩)
      { method := "get", url := "/u", interceptorLimit := 1 }
      { method := "get", url := "/u", interceptorLimit := 1 }
      ⟨0, .obj [("data", .num 5)]⟩ ⟨1, .num 42⟩ none
      rfl rfl rfl).trans rfl⟩

/-- Claim C6: a rejection coming out of the transport/interceptor stage
propagates through the invoker unchanged — the unwrap `.then` and
`postProcess` fire only on fulfillment and no catch handler is installed —
while the `.finally` finalizer still deletes the wrapper's resolution flag
on failure, so a subsequent instance-level call on the same wrapper cannot
raise the reentrancy error. -/
theorem rejection_propagates_flag_cleared (ics : List Interceptor)
    (transport : ReqConfig → Except Reason TaggedVal) (cfg : ReqConfig)
    (pp : Option (JSVal → Except Reason JSVal)) (e : Reason)
    (name : String) (action : ActionDef) (rc : ResourceCfg) (r : ResObj)
    (hResp : respPhase ics cfg.interceptorLimit
      (httpStep transport (reqPhase ics cfg.interceptorLimit (.ok cfg))).2 = .error e) :
    runPipeline ics transport cfg pp = .error e ∧
    settleSingle action r (.error e) = (r.clearUnresolved, .error e) ∧
    r.clearUnresolved.unresolvedFlag = false ∧
    (∀ callArgs : List JSVal,
      instanceCallSync name action rc r.clearUnresolved callArgs ≠
        .error (unresolvedRequest name)) := by
  refine ⟨?_, rfl, clearUnresolved_flag r, ?_⟩
  · simp only [runPipeline]
    rw [hResp]
    cases pp <;> rfl
  · intro callArgs hcontra
    unfold instanceCallSync at hcontra
    rw [clearUnresolved_flag r] at hcontra
    simp only [Bool.false_eq_true, if_false] at hcontra
    cases hplan : performActionPlan action rc r.clearUnresolved.unwrap callArgs with
    | ok p =>
        rw [hplan] at hcontra
        simp [bind, Except.bind, pure, Except.pure] at hcontra
    | error er =>
        rw [hplan] at hcontra
        simp only [bind, Except.bind, Except.error.injEq] at hcontra
        obtain ⟨m, hm⟩ := performActionPlan_error_shape _ _ _ _ _ hplan
        rw [hm] at hcontra
        exact absurd hcontra (by simp [unresolvedRequest])

theorem rejection_propagates_flag_cleared_witness :
    runPipeline [] (fun _ => .error (.js (.str "boom")))
      { method := "get", url := "/u", interceptorLimit := 0 } none =
      .error (.js (.str "boom")) ∧
    instanceCallSync "get" { method := "get" } { url := "/u", interceptorLimit := 0 }
      (ResObj.construct (.obj [("id", .num 5)])).markUnresolved.clearUnresolved [] ≠
      .error (unresolvedRequest "get") := by
  have h := rejection_propagates_flag_cleared [] (fun _ => .error (.js (.str "boom")))
    { method := "get", url := "/u", interceptorLimit := 0 } none (.js (.str "boom"))
    "get" { method := "get" } { url := "/u", interceptorLimit := 0 }
    (ResObj.construct (.obj [("id", .num 5)])).markUnresolved rfl
  exact ⟨h.1, h.2.2.2 []⟩

/-- Counterexample to C3 as stated: for a singular action *without* a body
(method `get`) but with `ignoreResponse: true`, the claim says the wrapper
is left unmerged; the code's guard is `hasBody && action.ignoreResponse`,
so the fulfilled object response IS merged into the wrapper. -/
theorem singular_ignoreResponse_without_body_merges :
    ({ method := "get", ignoreResponse := true } : ActionDef).ignoreResponse = true ∧
    hasBody { method := "get", ignoreResponse := true } = false ∧
    (settleSingle { method := "get", ignoreResponse := true }
      (ResObj.construct .null).markUnresolved (.ok (.obj [("a", .num 1)]))).1.fields =
      [("a", .num 1)] :=
  ⟨rfl, rfl, rfl⟩

/-- Claim C3 (amended): a singular static action call constructs a fresh
wrapper synchronously — from the first argument when the action carries a
body, an empty shell otherwise — and returns it with resolution pending;
on fulfillment the response is merged into that same wrapper (the settled
promise carries the wrapper itself) unless `ignoreResponse` is set *and*
the action carries a body, in which case the wrapper is left unmerged and
the raw data passes through. -/
theorem singular_static_call_lifecycle (name : String) (action : ActionDef)
    (rc : ResourceCfg) (callArgs : List JSVal) (r : ResObj) (plan : Plan)
    (hSing : action.isArray = false)
    (hCall : staticCallSync name action rc callArgs = .ok (.single r plan)) :
    r = (ResObj.construct (callBodyData (hasBody action) callArgs)).markUnresolved ∧
    r.unresolvedFlag = true ∧
    (∀ v, (hasBody action && action.ignoreResponse) = true →
      settleSingle action r (.ok v) = (r.clearUnresolved, .ok (.val v))) ∧
    (∀ v, (hasBody action && action.ignoreResponse) = false →
      settleSingle action r (.ok v) =
        (r.clearUnresolved.resourceCall v,
          .ok (.res (r.clearUnresolved.resourceCall v)))) := by
  have hr : r = (ResObj.construct (callBodyData (hasBody action) callArgs)).markUnresolved := by
    simp only [staticCallSync, hSing, Bool.false_eq_true, if_false] at hCall
    cases hguard : (hasBody action && isNullish (callBodyData (hasBody action) callArgs)) with
    | true =>
        rw [hguard] at hCall
        simp at hCall
    | false =>
        rw [hguard] at hCall
        simp only [Bool.false_eq_true, if_false] at hCall
        cases hplan : performActionPlan action rc (callBodyData (hasBody action) callArgs)
            (callExtraArgs (hasBody action) callArgs) with
        | error er =>
            rw [hplan] at hCall
            simp [bind, Except.bind] at hCall
        | ok p =>
            rw [hplan] at hCall
            simp only [bind, Except.bind, pure, Except.pure, Except.ok.injEq,
              CallResult.single.injEq] at hCall
            exact hCall.1.symm
  refine ⟨hr, hr ▸ markUnresolved_flag _, fun v hb => ?_, fun v hb => ?_⟩
  · unfold settleSingle updateResourceFn
    simp [hb]
  · unfold settleSingle updateResourceFn
    simp [hb]

theorem singular_static_call_lifecycle_witness :
    (ResObj.construct (.obj [("x", .num 1)])).markUnresolved =
      (ResObj.construct (callBodyData (hasBody { method := "post" })
        [.obj [("x", .num 1)]])).markUnresolved ∧
    (ResObj.construct (.obj [("x", .num 1)])).markUnresolved.unresolvedFlag = true ∧
    settleSingle { method := "post" }
      (ResObj.construct (.obj [("x", .num 1)])).markUnresolved
      (.ok (.obj [("y", .num 2)])) =
      (⟨[("x", .num 1), ("y", .num 2)]⟩,
        .ok (.res ⟨[("x", .num 1), ("y", .num 2)]⟩)) := by
  have h := singular_static_call_lifecycle "save" { method := "post" }
    { url := "/u", interceptorLimit := 0 } [.obj [("x", .num 1)]]
    (ResObj.construct (.obj [("x", .num 1)])).markUnresolved
    (.go { method := "post", url := "/u", data := some (.obj [("x", .num 1)]),
           params := none, interceptorLimit := 0 })
    rfl rfl
  exact ⟨h.1, h.2.1, (h.2.2.2 (.obj [("y", .num 2)]) rfl).trans rfl⟩

/-- Counterexample to C1 as stated: "an array response whose length differs
from 3 still succeeds" fails for a 4-element response — the fourth
`forEach` iteration runs `Resource.call(resources[3], item)` with
`this === undefined` (strict mode), so the `$value` write throws and the
promise rejects instead of succeeding. -/
theorem collection_longer_response_rejects :
    (settleCollection "save" actC1 rsC1
      (.ok (.arr [.num 9, .num 9, .num 9, .num 9]))).2.2 =
      .error (.err (undefWriteError "$value")) := rfl

/-- Claim C1 (amended): a body-carrying collection action invoked with a
3-element array body eagerly creates exactly 3 wrappers, one per element,
returned synchronously with the array's resolution flag set; on fulfillment
with `ignoreResponse` unset, an array response of length k ≤ 3 succeeds
and updates the pre-created wrapper at index i in place with element i, in
index order, leaving wrappers past index k untouched (index-based, not
length-checked; a response longer than the body instead rejects once a
surplus element is neither undefined nor null); a defined, non-null,
non-array response fails with the array-type error. -/
theorem collection_body_call_settlement (name : String) (action : ActionDef)
    (rc : ResourceCfg) (callArgs : List JSVal) (a b c : JSVal)
    (rs : List ResObj) (fl : Bool) (plan : Plan)
    (hArr : action.isArray = true) (hB : hasBody action = true)
    (hIgn : action.ignoreResponse = false)
    (hData : callArgs.getD 0 .undefined = .arr [a, b, c])
    (hCall : staticCallSync name action rc callArgs = .ok (.collection rs fl plan)) :
    rs = [ResObj.construct a, ResObj.construct b, ResObj.construct c] ∧ fl = true ∧
    (∀ items : List JSVal, items.length ≤ 3 →
      settleCollection name action rs (.ok (.arr items)) =
        (List.zipWith ResObj.resourceCall rs items ++ rs.drop items.length, false,
          .ok (.resArr
            (List.zipWith ResObj.resourceCall rs items ++ rs.drop items.length)))) ∧
    (∀ v : JSVal, isNullish v = false → (∀ es, v ≠ .arr es) →
      settleCollection name action rs (.ok v) =
        (rs, false, .error (.err (expectedArrayError name)))) := by
  have hdata2 : callBodyData (hasBody action) callArgs = .arr [a, b, c] := by
    rw [hB]
    exact hData
  have hrsfl : rs = [ResObj.construct a, ResObj.construct b, ResObj.construct c] ∧
      fl = true := by
    simp only [staticCallSync] at hCall
    rw [hdata2, hB, hArr] at hCall
    simp only [isNullish, Bool.true_and, Bool.false_eq_true, if_false,
      eq_self_iff_true, if_true] at hCall
    cases hplan : performActionPlan action rc (.arr [a, b, c])
        (callExtraArgs true callArgs) with
    | error er =>
        rw [hplan] at hCall
        simp [bind, Except.bind] at hCall
    | ok p =>
        rw [hplan] at hCall
        simp only [bind, Except.bind, pure, Except.pure, List.map_cons, List.map_nil,
          Except.ok.injEq, CallResult.collection.injEq] at hCall
        exact ⟨hCall.1.symm, hCall.2.1.symm⟩
  obtain ⟨hrs, hfl⟩ := hrsfl
  have hlen3 : rs.length = 3 := by rw [hrs]; rfl
  refine ⟨hrs, hfl, ?_, ?_⟩
  · intro items hlen
    have hlen2 : items.length ≤ rs.length := by rw [hlen3]; exact hlen
    unfold settleCollection
    rw [hB, hIgn]
    simp only [Bool.and_false, Bool.false_eq_true, if_false, isNullish]
    rw [modifyAll_of_le items rs hlen2]
    simp
  · intro v hnln hnarr
    unfold settleCollection
    rw [hB, hIgn]
    cases v with
    | undefined => simp [isNullish] at hnln
    | null => simp [isNullish] at hnln
    | arr es => exact absurd rfl (hnarr es)
    | bool bb => simp [isNullish]
    | num n => simp [isNullish]
    | str s => simp [isNullish]
    | obj fs => simp [isNullish]

theorem collection_body_call_settlement_witness :
    settleCollection "save" actC1 rsC1 (.ok (.arr [.num 7])) =
      (List.zipWith ResObj.resourceCall rsC1 [.num 7] ++ rsC1.drop 1, false,
        .ok (.resArr (List.zipWith ResObj.resourceCall rsC1 [.num 7] ++ rsC1.drop 1))) ∧
    settleCollection "save" actC1 rsC1 (.ok (.bool true)) =
      (rsC1, false, .error (.err (expectedArrayError "save"))) := by
  have h := collection_body_call_settlement "save" actC1
    { url := "/u", interceptorLimit := 0 } [.arr [.num 1, .num 2, .num 3]]
    (.num 1) (.num 2) (.num 3) rsC1 true
    (.go { method := "post", url := "/u", data := some (.arr [.num 1, .num 2, .num 3]),
           params := none, interceptorLimit := 0 })
    rfl rfl rfl rfl rfl
  exact ⟨h.2.2.1 [.num 7] (by decide),
    h.2.2.2 (.bool true) rfl (fun es hes => by cases hes)⟩
